import Mathlib

/-!
Verification of the rate-limit decision engine of `astrbot_plugin_rate_limit`
(`src/main.py`), shallowly embedded in Lean 4.

Modelling conventions:
* Python `float` timestamps and cooldowns are modelled as `ℚ`;
  Python `int` limit values and window lengths as `ℤ`.
* A `deque` of timestamps is a `List ℚ` (front of the deque = head of the list).
* Python dicts keyed by id strings are total functions `String → Option ℤ`
  (resp. `String → List ℚ` for the `defaultdict(deque)` counters, with `[]`
  standing for an absent key — observationally identical to `defaultdict`).
* A Python `IndexError` (reading `records[0]` of an empty deque) is modelled
  by returning `none` from the operation: the fallible step yields `Option`.
* Python `round(x, 1)` uses round-half-to-even on the tenths digit; it is
  modelled by `py_round1` below.
-/

/-- Round-half-to-even to the nearest integer, as Python's `round` does. -/
def round_half_even (x : ℚ) : ℤ :=
  if x - (Int.floor x : ℚ) < 1/2 then Int.floor x
  else if 1/2 < x - (Int.floor x : ℚ) then Int.floor x + 1
  else if Int.floor x % 2 = 0 then Int.floor x else Int.floor x + 1

/-- Python `round(x, 1)`: round to one decimal place, ties to even. -/
def py_round1 (x : ℚ) : ℚ := (round_half_even (10 * x) : ℚ) / 10

/-- Result of `_sliding_window_check` (`src/main.py` lines 94-104): the deque
after in-place pruning, the boolean verdict, and the returned cooldown. -/
structure CheckResult where
  records' : List ℚ
  allowed : Bool
  cooldown : ℚ
  deriving DecidableEq, Repr

/-- `_sliding_window_check(records, max_req, time_window, now)`
(`src/main.py` lines 94-104).  The `while` loop pops timestamps from the
front while `records[0] <= window_start`, i.e. `dropWhile`.  When
`len(records) >= max_req` the code reads `records[0]`; on an empty deque that
raises `IndexError`, modelled as `none`. -/
def sliding_window_check (records : List ℚ) (max_req : ℤ) (time_window : ℤ)
    (now : ℚ) : Option CheckResult :=
  let window_start : ℚ := now - (time_window : ℚ)
  let pruned := records.dropWhile (fun t => decide (t ≤ window_start))
  if (max_req : ℤ) ≤ (pruned.length : ℤ) then
    match pruned with
    | [] => none
    | t :: _ => some ⟨pruned, false, py_round1 (t - window_start)⟩
  else some ⟨pruned, true, 0⟩

/-- The pruning step alone: drop leading timestamps `≤ window_start`. -/
def prune (records : List ℚ) (window_start : ℚ) : List ℚ :=
  records.dropWhile (fun t => decide (t ≤ window_start))

example : sliding_window_check [10, 20, 30] 3 60 50 =
    some ⟨[10, 20, 30], false, 20⟩ := by
  norm_num [sliding_window_check, py_round1, round_half_even, List.dropWhile]

example : sliding_window_check [] 0 60 100 = none := by decide

example : sliding_window_check [10, 50] 1 60 100 = some ⟨[50], false, 10⟩ := by
  norm_num [sliding_window_check, py_round1, round_half_even, List.dropWhile]

/-- `_sliding_window_record(records, now)` (`src/main.py` lines 106-109):
append `now` to the deque. -/
def sliding_window_record (records : List ℚ) (now : ℚ) : List ℚ :=
  records ++ [now]

/-! ### Basic lemmas about pruning and rounding -/

/-- Pruning a sorted list keeps exactly the timestamps strictly inside the
window: `dropWhile` coincides with `filter` on a sorted list. -/
theorem prune_sorted_eq_filter (records : List ℚ) (window_start : ℚ)
    (hs : records.Sorted (· ≤ ·)) :
    prune records window_start =
      records.filter (fun t => decide (window_start < t)) := by
  induction records with
  | nil => rfl
  | cons a l ih =>
    rcases List.sorted_cons.mp hs with ⟨ha, hl⟩
    by_cases h : a ≤ window_start
    · have h' : ¬ window_start < a := not_lt.mpr h
      simp only [prune, List.dropWhile_cons, List.filter_cons] at *
      simp [h, h', ih hl]
    · have h' : window_start < a := lt_of_not_le h
      have hall : ∀ t ∈ l, ¬ (t ≤ window_start) := by
        intro t ht
        exact not_le.mpr (lt_of_lt_of_le h' (ha t ht))
      simp only [prune, List.dropWhile_cons, List.filter_cons]
      have hfl : l.filter (fun t => decide (window_start < t)) = l := by
        apply List.filter_eq_self.mpr
        intro t ht
        exact decide_eq_true (lt_of_lt_of_le h' (ha t ht))
      simp [h, h', hfl]

/-- The head of a pruned list is strictly newer than the window start. -/
theorem prune_head_gt (records : List ℚ) (window_start : ℚ) (t : ℚ)
    (rest : List ℚ) (h : prune records window_start = t :: rest) :
    window_start < t := by
  induction records with
  | nil => simp [prune] at h
  | cons a l ih =>
    rw [prune, List.dropWhile_cons] at h
    by_cases hc : a ≤ window_start
    · simp only [decide_eq_true hc, if_true] at h
      exact ih (by rw [prune]; exact h)
    · simp only [decide_eq_false hc, Bool.false_eq_true, if_false,
        List.cons.injEq] at h
      exact h.1 ▸ lt_of_not_le hc

/-- `round_half_even` never rounds below the floor. -/
theorem round_half_even_nonneg (x : ℚ) (hx : 0 ≤ x) : 0 ≤ round_half_even x := by
  have hf : (0 : ℤ) ≤ Int.floor x := Int.floor_nonneg.mpr hx
  unfold round_half_even
  split
  · exact hf
  · split
    · omega
    · split
      · exact hf
      · omega

/-- Python `round(x, 1)` of a nonnegative rational is nonnegative. -/
theorem py_round1_nonneg (x : ℚ) (hx : 0 ≤ x) : 0 ≤ py_round1 x := by
  have h := round_half_even_nonneg (10 * x) (by positivity)
  unfold py_round1
  exact div_nonneg (by exact_mod_cast h) (by norm_num)

/-- Unfolding equation for `sliding_window_check` in terms of `prune`. -/
theorem sliding_window_check_eq (records : List ℚ) (max_req time_window : ℤ)
    (now : ℚ) :
    sliding_window_check records max_req time_window now =
      if max_req ≤ (List.length (prune records (now - (time_window : ℚ))) : ℤ)
      then
        match prune records (now - (time_window : ℚ)) with
        | [] => none
        | t :: _ =>
            some ⟨prune records (now - (time_window : ℚ)), false,
              py_round1 (t - (now - (time_window : ℚ)))⟩
      else some ⟨prune records (now - (time_window : ℚ)), true, 0⟩ := rfl

/-- C2: for every key, capacity, window and now, `prune_and_check` first drops
all leading timestamps `≤ now − window` and then denies exactly when the
remaining count is `≥ capacity`: on a sorted (oldest-first) history the
surviving timestamps are exactly those with `now − window < t` — so an event
recorded at `t` no longer counts at any query time `now ≥ t + window` — and
the verdict is deny iff the remaining count is `≥ capacity` (a count equal to
capacity denies, a count below it allows). -/
theorem claim_c2 (records : List ℚ) (cap time_window : ℤ) (now : ℚ)
    (r : CheckResult) (hs : records.Sorted (· ≤ ·))
    (hr : sliding_window_check records cap time_window now = some r) :
    r.records' = records.filter (fun t => decide (now - (time_window : ℚ) < t))
      ∧ (∀ t ∈ records, t + (time_window : ℚ) ≤ now → t ∉ r.records')
      ∧ (r.allowed = false ↔ cap ≤ (r.records'.length : ℤ)) := by
  have hps := prune_sorted_eq_filter records (now - (time_window : ℚ)) hs
  have hmem : ∀ t ∈ records, t + (time_window : ℚ) ≤ now →
      t ∉ records.filter (fun t => decide (now - (time_window : ℚ) < t)) := by
    intro t _ hexp hmemf
    have hlt : now - (time_window : ℚ) < t :=
      of_decide_eq_true (List.mem_filter.mp hmemf).2
    linarith
  rw [sliding_window_check_eq] at hr
  by_cases hlen :
      cap ≤ (List.length (prune records (now - (time_window : ℚ))) : ℤ)
  · rw [if_pos hlen] at hr
    rcases hpr : prune records (now - (time_window : ℚ)) with _ | ⟨t, rest⟩
    · rw [hpr] at hr
      exact absurd hr (by simp)
    · rw [hpr] at hr
      simp only [Option.some.injEq] at hr
      subst hr
      rw [hpr] at hlen hps
      dsimp only
      refine ⟨hps, ?_, ?_⟩
      · intro u hu hexp
        rw [hps]
        exact hmem u hu hexp
      · exact ⟨fun _ => hlen, fun _ => rfl⟩
  · rw [if_neg hlen] at hr
    simp only [Option.some.injEq] at hr
    subst hr
    dsimp only
    refine ⟨hps, ?_, ?_⟩
    · intro u hu hexp
      rw [hps]
      exact hmem u hu hexp
    · constructor
      · intro hfalse
        exact absurd hfalse (by simp)
      · intro hle
        exact absurd hle hlen

/-- Witness for C2 at records `[10, 50]`, capacity 1, window 60, `now = 100`:
the event at 10 has expired, the one at 50 survives, and the count 1 equals
the capacity, so the request is denied. -/
theorem claim_c2_witness :
    ∃ r : CheckResult, sliding_window_check [10, 50] 1 60 100 = some r
      ∧ r.records' =
          ([10, 50] : List ℚ).filter (fun t => decide ((100 : ℚ) - ((60 : ℤ) : ℚ) < t))
      ∧ (r.allowed = false ↔ (1 : ℤ) ≤ (r.records'.length : ℤ)) := by
  have hs : ([10, 50] : List ℚ).Sorted (· ≤ ·) := by
    simp [List.sorted_cons]
    norm_num
  have hr : sliding_window_check [10, 50] 1 60 100 = some ⟨[50], false, 10⟩ := by
    norm_num [sliding_window_check, py_round1, round_half_even, List.dropWhile]
  have h := claim_c2 [10, 50] 1 60 100 ⟨[50], false, 10⟩ hs hr
  exact ⟨⟨[50], false, 10⟩, hr, h.1, h.2.2⟩

/-- C3: whenever `prune_and_check` denies, the returned cooldown is
`round(oldest_remaining − (now − window), 1)` and is `≥ 0`; in the literal
case capacity 3, window 60, events at 10, 20, 30, a query at 50 is denied
with cooldown exactly 20.0. -/
theorem claim_c3 :
    (∀ (records : List ℚ) (cap time_window : ℤ) (now : ℚ) (r : CheckResult),
        sliding_window_check records cap time_window now = some r →
        r.allowed = false →
        ∃ t rest, r.records' = t :: rest
          ∧ r.cooldown = py_round1 (t - (now - (time_window : ℚ)))
          ∧ 0 ≤ r.cooldown)
    ∧ sliding_window_check [10, 20, 30] 3 60 50 =
        some ⟨[10, 20, 30], false, 20⟩ := by
  constructor
  · intro records cap time_window now r hr hdeny
    rw [sliding_window_check_eq] at hr
    by_cases hlen :
        cap ≤ (List.length (prune records (now - (time_window : ℚ))) : ℤ)
    · rw [if_pos hlen] at hr
      rcases hpr : prune records (now - (time_window : ℚ)) with _ | ⟨t, rest⟩
      · rw [hpr] at hr
        exact absurd hr (by simp)
      · rw [hpr] at hr
        simp only [Option.some.injEq] at hr
        subst hr
        have hgt := prune_head_gt records (now - (time_window : ℚ)) t rest hpr
        exact ⟨t, rest, rfl, rfl, py_round1_nonneg _ (by linarith)⟩
    · rw [if_neg hlen] at hr
      simp only [Option.some.injEq] at hr
      subst hr
      exact absurd hdeny (by simp)
  · norm_num [sliding_window_check, py_round1, round_half_even, List.dropWhile]

/-- Witness for C3: applying the general cooldown law at the literal case
capacity 3, window 60, events 10, 20, 30, query at 50. -/
theorem claim_c3_witness :
    ∃ t rest, ([10, 20, 30] : List ℚ) = t :: rest
      ∧ (20 : ℚ) = py_round1 (t - ((50 : ℚ) - ((60 : ℤ) : ℚ)))
      ∧ (0 : ℚ) ≤ 20 := by
  have h := claim_c3
  exact h.1 [10, 20, 30] 3 60 50 ⟨[10, 20, 30], false, 20⟩ h.2 rfl

/-! ### Deserialization of persisted limit lists (`_parse_limit_list`)

Python strings are modelled as `List Char`; `str.strip`, the `in` test,
`str.split(":", 1)` and `int(...)` are implemented character by character.
(`int`'s underscore digit grouping is not modelled; no claim involves it.)
A Python dict is a total function to `Option`, later assignments winning. -/

/-- Python `str.strip()`: drop leading and trailing whitespace. -/
def py_strip (s : List Char) : List Char :=
  ((s.dropWhile Char.isWhitespace).reverse.dropWhile Char.isWhitespace).reverse

/-- Python `s.split(sep, 1)`: the part before the first `sep` and, when `sep`
occurs, the part after it.  `none` in the second component means `sep` does
not occur, i.e. Python's `sep not in s`. -/
def py_split1 (sep : Char) : List Char → List Char × Option (List Char)
  | [] => ([], none)
  | c :: rest =>
    if c = sep then ([], some rest)
    else
      match py_split1 sep rest with
      | (pre, post) => (c :: pre, post)

/-- Python `int(s)` on a stripped string: optional sign then a nonempty run
of decimal digits; anything else raises `ValueError`, modelled as `none`. -/
def py_int (s : List Char) : Option ℤ :=
  match s with
  | [] => none
  | c :: rest =>
    if c = '-' then (py_digits rest).map (fun n => -(n : ℤ))
    else if c = '+' then (py_digits rest).map (fun n => (n : ℤ))
    else (py_digits s).map (fun n => (n : ℤ))
where
  py_digits (d : List Char) : Option ℕ :=
    if d = [] then none
    else if d.all Char.isDigit then
      some (d.foldl (fun acc c => 10 * acc + (c.toNat - '0'.toNat)) 0)
    else none

/-- The body of the `for entry in raw` loop of `_parse_limit_list`
(`src/main.py` lines 15-23): strip the entry, skip it if `":"` is absent,
split once on `":"`, parse the suffix as an int (skip on `ValueError`), and
yield the key/value pair to store. -/
def entry_kv (entry : List Char) : Option (List Char × ℤ) :=
  match py_split1 ':' (py_strip entry) with
  | (_, none) => none
  | (pre, some post) =>
    match py_int (py_strip post) with
    | none => none
    | some v => some (py_strip pre, v)

/-- Dict assignment `result[k] = v`. -/
def dict_set (d : List Char → Option ℤ) (k : List Char) (v : ℤ) :
    List Char → Option ℤ :=
  fun x => if x = k then some v else d x

/-- One iteration of the `_parse_limit_list` loop: skip the entry when the
loop body `continue`s, otherwise store the parsed pair. -/
def parse_step (d : List Char → Option ℤ) (entry : List Char) :
    List Char → Option ℤ :=
  match entry_kv entry with
  | none => d
  | some (k, v) => dict_set d k v

/-- `_parse_limit_list(raw)` (`src/main.py` lines 12-24): fold the loop body
over the raw entries, starting from the empty dict. -/
def parse_limit_list (raw : List (List Char)) : List Char → Option ℤ :=
  raw.foldl parse_step (fun _ => none)

/-- Declarative reading of the claimed behaviour: the value for a key is the
count of the last well-formed entry with that key. -/
def assoc_last (l : List (List Char × ℤ)) (k : List Char) : Option ℤ :=
  (l.reverse.find? (fun p => decide (p.1 = k))).map (fun p => p.2)

example : parse_limit_list ["id:0".toList] "id".toList = some 0 := by decide
example : parse_limit_list ["a:1".toList, "bad".toList, "b:2".toList] "b".toList
    = some 2 := by decide
example : entry_kv "nocolon".toList = none := by decide
example : entry_kv "a:x".toList = none := by decide
example : entry_kv " a : -7 ".toList = some ("a".toList, -7) := by decide

/-- Folding the loop body computes, for each key, the value of the last
well-formed entry for that key, falling back to the initial dict. -/
theorem parse_foldl_last (raw : List (List Char)) (d : List Char → Option ℤ)
    (k : List Char) :
    (raw.foldl parse_step d) k =
      (assoc_last (raw.filterMap entry_kv) k).or (d k) := by
  induction raw using List.reverseRecOn with
  | nil => simp [assoc_last, Option.none_or]
  | append_singleton raw e ih =>
    rw [List.foldl_append, List.foldl_cons, List.foldl_nil,
      List.filterMap_append]
    rcases he : entry_kv e with _ | ⟨k0, v⟩
    · rw [show parse_step (List.foldl parse_step d raw) e =
          List.foldl parse_step d raw from by rw [parse_step, he]]
      rw [show List.filterMap entry_kv [e] = [] from by
        simp [List.filterMap_cons, he]]
      rw [List.append_nil]
      exact ih
    · rw [show parse_step (List.foldl parse_step d raw) e =
          dict_set (List.foldl parse_step d raw) k0 v from by
        rw [parse_step, he]]
      rw [show List.filterMap entry_kv [e] = [(k0, v)] from by
        simp [List.filterMap_cons, he]]
      by_cases hk : k = k0
      · subst hk
        rw [show dict_set (List.foldl parse_step d raw) k v k = some v from by
          simp [dict_set]]
        rw [show assoc_last (List.filterMap entry_kv raw ++ [(k, v)]) k =
            some v from by simp [assoc_last, List.find?_cons]]
        rfl
      · rw [show dict_set (List.foldl parse_step d raw) k0 v k =
            List.foldl parse_step d raw k from by simp [dict_set, hk]]
        have hk' : decide (k0 = k) = false := decide_eq_false (fun h => hk h.symm)
        rw [show assoc_last (List.filterMap entry_kv raw ++ [(k0, v)]) k =
            assoc_last (List.filterMap entry_kv raw) k from by
          simp [assoc_last, List.find?_cons, hk']]
        exact ih

/-- C10: deserialization returns the mapping built from exactly the
well-formed `id:count` entries — each key maps to the count of the last
well-formed entry carrying it — and a malformed entry (missing `:` or
non-integer suffix) is skipped without affecting the rest of the load. -/
theorem claim_c10 :
    (∀ (raw : List (List Char)) (k : List Char),
        parse_limit_list raw k = assoc_last (raw.filterMap entry_kv) k)
    ∧ (∀ (pre : List (List Char)) (bad : List Char) (post : List (List Char)),
        entry_kv bad = none →
        parse_limit_list (pre ++ bad :: post) = parse_limit_list (pre ++ post)) := by
  constructor
  · intro raw k
    rw [parse_limit_list, parse_foldl_last]
    cases assoc_last (List.filterMap entry_kv raw) k <;> rfl
  · intro pre bad post hbad
    funext k
    rw [parse_limit_list, parse_limit_list, parse_foldl_last, parse_foldl_last]
    rw [List.filterMap_append, List.filterMap_append, List.filterMap_cons, hbad]

/-- Witness for C10: a malformed entry in the middle of a load is skipped and
the surrounding well-formed entries are parsed as if it were absent. -/
theorem claim_c10_witness :
    entry_kv "nocolon".toList = none
    ∧ parse_limit_list ["a:1".toList, "nocolon".toList, "b:2".toList] =
        parse_limit_list ["a:1".toList, "b:2".toList] := by
  have h : entry_kv "nocolon".toList = none := by decide
  exact ⟨h, claim_c10.2 ["a:1".toList] "nocolon".toList ["b:2".toList] h⟩

/-- C4 counterexample: with capacity 0 — exactly what the persisted entry
`"id:0"` deserializes to — an empty sequence does reach the deny branch:
`len([]) >= 0` holds, the code reads `records[0]` of an empty deque, and the
check raises (modelled as `none`) instead of allowing. -/
theorem claim_c4_counterexample :
    sliding_window_check [] 0 60 100 = none
    ∧ parse_limit_list ["id:0".toList] "id".toList = some 0 := by
  exact ⟨by decide, by decide⟩

/-- C4 amended: if the sequence is empty after pruning and the capacity is
`≥ 1`, the check allows (an empty sequence never denies for any positive
capacity); but for a capacity `≤ 0` — producible by a persisted entry such as
`"id:0"` — the comparison `0 >= capacity` sends the empty sequence into the
deny branch, where reading the oldest timestamp raises `IndexError`. -/
theorem claim_c4 (records : List ℚ) (cap time_window : ℤ) (now : ℚ)
    (hempty : prune records (now - (time_window : ℚ)) = []) :
    (1 ≤ cap → sliding_window_check records cap time_window now =
        some ⟨[], true, 0⟩)
    ∧ (cap ≤ 0 → sliding_window_check records cap time_window now = none) := by
  rw [sliding_window_check_eq]
  rw [hempty]
  constructor
  · intro hcap
    rw [if_neg (by simp; omega)]
  · intro hcap
    rw [if_pos (by simp; omega)]

/-- Witness for C4 amended, at the empty history with window 60 and
`now = 100`: capacity 1 allows, capacity 0 crashes. -/
theorem claim_c4_witness :
    prune [] ((100 : ℚ) - ((60 : ℤ) : ℚ)) = []
    ∧ sliding_window_check [] 1 60 100 = some ⟨[], true, 0⟩
    ∧ sliding_window_check [] 0 60 100 = none := by
  have h : prune [] ((100 : ℚ) - ((60 : ℤ) : ℚ)) = [] := rfl
  exact ⟨h, (claim_c4 [] 1 60 100 h).1 le_rfl, (claim_c4 [] 0 60 100 h).2 le_rfl⟩

/-- C8 counterexample: the deserialization path stores a value below 1 — the
persisted entry `"a:0"` parses to value 0, and `"b:-3"` parses to −3 — so the
strict-positivity invariant is not preserved by every populating path. -/
theorem claim_c8_counterexample :
    parse_limit_list ["a:0".toList] "a".toList = some 0
    ∧ parse_limit_list ["b:-3".toList] "b".toList = some (-3)
    ∧ ¬ (1 : ℤ) ≤ 0 := by
  exact ⟨by decide, by decide, by decide⟩

/-! ### The plugin state and the admission decision (`on_llm_request`)

`RateLimitPlugin`'s mutable attributes are gathered in `PluginState`.
Actor/group ids are Lean `String`s; an absent group (`event.get_group_id()`
returning a falsy value) is `none`, and Python's truthiness test on the group
id (`if group_id and ...`) is `group_truthy`.  A denial in the code sends a
tip message and stops the event; the outcome is modelled as a `Decision` as
in the spec.  `Option` on the whole step models the `IndexError` that
`_sliding_window_check` can raise. -/

/-- Why a request was allowed or denied. -/
inductive Reason where
  | whitelist
  | userLimit
  | groupTotal
  | ok
  deriving DecidableEq, Repr

/-- Outcome of one admission decision. -/
structure Decision where
  allowed : Bool
  cooldown : ℚ
  reason : Reason
  deriving DecidableEq, Repr

/-- Mutable per-instance state of `RateLimitPlugin` (`src/main.py`
lines 34-54): feature toggles, limit configuration, whitelist, and the two
`defaultdict(deque)` counter collections. -/
structure PluginState where
  enable_user_limit : Bool
  enable_group_total_limit : Bool
  max_requests : ℤ
  time_window : ℤ
  default_group_total : ℤ
  whitelist : List String
  group_limits : String → Option ℤ
  group_total_limits : String → Option ℤ
  user_limits : String → Option ℤ
  request_records : String → List ℚ
  group_records : String → List ℚ

/-- Python truthiness of the optional group id: `None` and `""` are falsy. -/
def group_truthy : Option String → Bool
  | none => false
  | some g => decide (g ≠ "")

/-- Pointwise update of a keyed map (dict assignment / deque mutation). -/
def set_fn {α : Type} (m : String → α) (k : String) (v : α) : String → α :=
  fun x => if x = k then v else m x

/-- `_resolve_max_requests(user_id, group_id)` (`src/main.py` lines 73-82):
per-user cap with priority user override > group override > global default. -/
def resolve_max_requests (s : PluginState) (user_id : String)
    (group_id : Option String) : ℤ :=
  match s.user_limits user_id with
  | some v => v
  | none =>
    if group_truthy group_id then
      match s.group_limits (group_id.getD "") with
      | some v => v
      | none => s.max_requests
    else s.max_requests

/-- `_resolve_group_total(group_id)` (`src/main.py` lines 84-92): group
aggregate cap, per-group override > global default (0 = unlimited). -/
def resolve_group_total (s : PluginState) (group_id : String) : ℤ :=
  match s.group_total_limits group_id with
  | some v => v
  | none => s.default_group_total

/-- Stage 1 of `on_llm_request` (`src/main.py` lines 132-145): when the user
limit is enabled, run the sliding-window check on the actor's counter
(mutating it by pruning) and report the verdict and cooldown. -/
def user_stage (s : PluginState) (user_id : String) (group_id : Option String)
    (now : ℚ) : Option (PluginState × Bool × ℚ) :=
  if s.enable_user_limit then
    match sliding_window_check (s.request_records user_id)
        (resolve_max_requests s user_id group_id) s.time_window now with
    | none => none
    | some r =>
      some ({ s with
        request_records := set_fn s.request_records user_id r.records' },
        r.allowed, r.cooldown)
  else some (s, true, 0)

/-- The `group_max` computation of `on_llm_request` (`src/main.py`
lines 148-150): 0 unless the group-total feature is on and a group is
present. -/
def group_max_of (s : PluginState) (group_id : Option String) : ℤ :=
  if s.enable_group_total_limit && group_truthy group_id then
    resolve_group_total s (group_id.getD "")
  else 0

/-- Stage 2 of `on_llm_request` (`src/main.py` lines 151-162): when a group
is present and `group_max > 0`, run the sliding-window check on the group's
shared counter. -/
def group_stage (s : PluginState) (group_id : Option String) (group_max : ℤ)
    (now : ℚ) : Option (PluginState × Bool × ℚ) :=
  if group_truthy group_id && decide (0 < group_max) then
    match sliding_window_check (s.group_records (group_id.getD ""))
        group_max s.time_window now with
    | none => none
    | some r =>
      some ({ s with
        group_records := set_fn s.group_records (group_id.getD "") r.records' },
        r.allowed, r.cooldown)
  else some (s, true, 0)

/-- The record step of `on_llm_request` (`src/main.py` lines 164-168),
reached only when both checks passed: append `now` to the actor's counter if
the user limit is enabled, and to the group counter if a group cap was
active. -/
def record_stage (s : PluginState) (user_id : String)
    (group_id : Option String) (group_max : ℤ) (now : ℚ) : PluginState :=
  let s3 :=
    if s.enable_user_limit then
      { s with
        request_records := set_fn s.request_records user_id (sliding_window_record (s.request_records user_id) now) }
    else s
  if group_truthy group_id && decide (0 < group_max) then
    { s3 with
      group_records := set_fn s3.group_records (group_id.getD "") (sliding_window_record (s3.group_records (group_id.getD "")) now) }
  else s3

/-- `on_llm_request(event, request)` (`src/main.py` lines 113-168): whitelist
bypass, then user-level check, then group-total check, then record. -/
def on_llm_request (s : PluginState) (user_id : String)
    (group_id : Option String) (now : ℚ) : Option (PluginState × Decision) :=
  if user_id ∈ s.whitelist then some (s, ⟨true, 0, Reason.whitelist⟩)
  else
    match user_stage s user_id group_id now with
    | none => none
    | some (s1, u_allowed, u_cd) =>
      if u_allowed then
        match group_stage s1 group_id (group_max_of s1 group_id) now with
        | none => none
        | some (s2, g_allowed, g_cd) =>
          if g_allowed then
            some (record_stage s2 user_id group_id (group_max_of s1 group_id)
              now, ⟨true, 0, Reason.ok⟩)
          else some (s2, ⟨false, g_cd, Reason.groupTotal⟩)
      else some (s1, ⟨false, u_cd, Reason.userLimit⟩)

/-! ### Administrative commands (`/rl ...`)

Each command is a pure state transformer; the permission check, the reply
message and `save_config` are outside the engine.  An early `return` after an
informational reply leaves the state unchanged. -/

/-- `rl wl_add` (`src/main.py` lines 217-227): add to the whitelist (no
counter is touched). -/
def rl_whitelist_add (s : PluginState) (user_id : String) : PluginState :=
  if user_id ∈ s.whitelist then s
  else { s with whitelist := s.whitelist ++ [user_id] }

/-- `rl wl_del` (`src/main.py` lines 229-240): remove from the whitelist and
drop the actor's counter history (`self._request_records.pop(user_id, None)`). -/
def rl_whitelist_remove (s : PluginState) (user_id : String) : PluginState :=
  if user_id ∈ s.whitelist then
    { s with
      whitelist := s.whitelist.erase user_id,
      request_records := set_fn s.request_records user_id [] }
  else s

/-- `rl user_set` (`src/main.py` lines 364-374): reject counts `< 1`,
otherwise store the per-actor limit and drop the actor's counter history. -/
def rl_user_set (s : PluginState) (user_id : String) (count : ℤ) : PluginState :=
  if count < 1 then s
  else
    { s with
      user_limits := set_fn s.user_limits user_id (some count),
      request_records := set_fn s.request_records user_id [] }

/-- `rl user_del` (`src/main.py` lines 376-385): delete the per-actor limit.
The actor's counter history is NOT touched by this command. -/
def rl_user_del (s : PluginState) (user_id : String) : PluginState :=
  if (s.user_limits user_id).isSome then
    { s with user_limits := set_fn s.user_limits user_id none }
  else s

/-- `rl group_set` (`src/main.py` lines 285-294): reject counts `< 1`,
otherwise store the per-group user limit. -/
def rl_group_set (s : PluginState) (group_id : String) (count : ℤ) : PluginState :=
  if count < 1 then s
  else { s with group_limits := set_fn s.group_limits group_id (some count) }

/-- `rl gtotal_set` (`src/main.py` lines 322-333): reject counts `< 1`,
otherwise store the group-total limit. -/
def rl_gtotal_set (s : PluginState) (group_id : String) (count : ℤ) : PluginState :=
  if count < 1 then s
  else
    { s with
      group_total_limits := set_fn s.group_total_limits group_id (some count) }

/-- A convenient concrete state: all features on, default cap 6, window 60,
no overrides, no history (the constructor defaults of the plugin). -/
def base_state : PluginState where
  enable_user_limit := true
  enable_group_total_limit := true
  max_requests := 6
  time_window := 60
  default_group_total := 0
  whitelist := []
  group_limits := fun _ => none
  group_total_limits := fun _ => none
  user_limits := fun _ => none
  request_records := fun _ => []
  group_records := fun _ => []

/-- C9: a request from a whitelisted actor is decided `allowed` with reason
`whitelist` before any limit resolution or counter access: the returned
state is the input state unchanged — neither counter is read, pruned, or
recorded into. -/
theorem claim_c9 (s : PluginState) (user_id : String)
    (group_id : Option String) (now : ℚ) (h : user_id ∈ s.whitelist) :
    on_llm_request s user_id group_id now =
      some (s, ⟨true, 0, Reason.whitelist⟩) := by
  rw [on_llm_request, if_pos h]

/-- Witness for C9: the whitelisted actor `"vip"` with a full counter history
is admitted with the state untouched. -/
theorem claim_c9_witness :
    on_llm_request
        { base_state with
          whitelist := ["vip"],
          request_records := set_fn base_state.request_records "vip" [1, 2, 3] }
        "vip" (some "g1") 100 =
      some ({ base_state with
          whitelist := ["vip"],
          request_records := set_fn base_state.request_records "vip" [1, 2, 3] },
        ⟨true, 0, Reason.whitelist⟩) := by
  exact claim_c9 _ "vip" (some "g1") 100 (by decide)

/-- C7: the effective per-user cap is resolved by a strict priority chain in
which exactly one tier wins — per-actor limit, else per-group user limit
(when a group is present), else the global default; an actor with a
per-actor limit keeps its cap under any change of the group limits, and an
actor without one in a capped group gets exactly the group cap regardless of
the global default. -/
theorem claim_c7 (s : PluginState) (user_id : String)
    (group_id : Option String) :
    (∀ v, s.user_limits user_id = some v →
        resolve_max_requests s user_id group_id = v)
    ∧ (∀ gid w, s.user_limits user_id = none → group_id = some gid →
        gid ≠ "" → s.group_limits gid = some w →
        resolve_max_requests s user_id group_id = w)
    ∧ (s.user_limits user_id = none →
        (∀ gid, group_id = some gid → gid ≠ "" → s.group_limits gid = none) →
        resolve_max_requests s user_id group_id = s.max_requests)
    ∧ (∀ v gl, s.user_limits user_id = some v →
        resolve_max_requests { s with group_limits := gl } user_id group_id =
          resolve_max_requests s user_id group_id)
    ∧ (∀ gid w m, s.user_limits user_id = none → group_id = some gid →
        gid ≠ "" → s.group_limits gid = some w →
        resolve_max_requests { s with max_requests := m } user_id group_id = w) := by
  refine ⟨?_, ?_, ?_, ?_, ?_⟩
  · intro v hv
    rw [resolve_max_requests, hv]
  · intro gid w hu hg hne hw
    subst hg
    rw [resolve_max_requests, hu]
    rw [show group_truthy (some gid) = true from by simp [group_truthy, hne]]
    simp only [if_true, Option.getD_some, hw]
  · intro hu hg
    rw [resolve_max_requests, hu]
    rcases group_id with _ | gid
    · rw [show group_truthy none = false from rfl]
      simp
    · by_cases hne : gid = ""
      · subst hne
        rw [show group_truthy (some "") = false from by decide]
        simp
      · rw [show group_truthy (some gid) = true from by simp [group_truthy, hne]]
        simp only [if_true, Option.getD_some, hg gid rfl hne]
  · intro v gl hv
    rw [resolve_max_requests, resolve_max_requests]
    simp only [hv]
  · intro gid w m hu hg hne hw
    subst hg
    rw [resolve_max_requests]
    simp only [hu]
    rw [show group_truthy (some gid) = true from by simp [group_truthy, hne]]
    simp only [if_true, Option.getD_some, hw]

/-- Witness for C7: with a per-actor limit 4 for `"uX"` and a group user
limit 7 for `"gA"`, the actor limit wins for `"uX"`, the group limit wins
for an unconfigured actor, and the fallback is the global default. -/
theorem claim_c7_witness :
    resolve_max_requests
        { base_state with
          user_limits := set_fn base_state.user_limits "uX" (some 4),
          group_limits := set_fn base_state.group_limits "gA" (some 7) }
        "uX" (some "gA") = 4
    ∧ resolve_max_requests
        { base_state with
          group_limits := set_fn base_state.group_limits "gA" (some 7) }
        "rand" (some "gA") = 7
    ∧ resolve_max_requests base_state "rand" none = 6 := by
  refine ⟨?_, ?_, ?_⟩
  · exact (claim_c7 _ "uX" (some "gA")).1 4 (by decide)
  · exact (claim_c7 _ "rand" (some "gA")).2.1 "gA" 7 (by decide) rfl
      (by decide) (by decide)
  · exact (claim_c7 base_state "rand" none).2.2.1 (by decide)
      (fun gid hg => by cases hg)

/-- C5 counterexample: with actor `"u"` holding a per-actor limit and a
recorded history `[5]`, `rl user_del` removes the limit but leaves the
history `[5]` in place, and `rl wl_add` on a fresh actor also leaves the
history in place — the claim that clearing the limit or adding to the bypass
set discards the counter history fails. -/
theorem claim_c5_counterexample :
    (rl_user_del
        { base_state with
          user_limits := set_fn base_state.user_limits "u" (some 2),
          request_records := set_fn base_state.request_records "u" [5] }
        "u").request_records "u" = [5]
    ∧ (rl_whitelist_add
        { base_state with
          request_records := set_fn base_state.request_records "u" [5] }
        "u").request_records "u" = [5]
    ∧ ([5] : List ℚ) ≠ [] := by
  exact ⟨by decide, by decide, by decide⟩

/-- C5 amended: removing an actor from the bypass set discards that actor's
sliding-window counter history; clearing the actor's per-actor limit
(`user_del`) and adding the actor to the bypass set leave the history
untouched. -/
theorem claim_c5 (s : PluginState) (user_id : String) :
    (user_id ∈ s.whitelist →
        (rl_whitelist_remove s user_id).request_records user_id = [])
    ∧ (rl_user_del s user_id).request_records = s.request_records
    ∧ (rl_whitelist_add s user_id).request_records = s.request_records := by
  refine ⟨?_, ?_, ?_⟩
  · intro h
    rw [rl_whitelist_remove, if_pos h]
    simp [set_fn]
  · rw [rl_user_del]
    split <;> rfl
  · rw [rl_whitelist_add]
    split <;> rfl

/-- Witness for C5 amended: `"w"` is whitelisted with history `[3]`; removal
from the whitelist empties the history, while `user_del` and `wl_add` keep
the records map intact. -/
theorem claim_c5_witness :
    (rl_whitelist_remove
        { base_state with
          whitelist := ["w"],
          request_records := set_fn base_state.request_records "w" [3] }
        "w").request_records "w" = []
    ∧ (rl_user_del base_state "w").request_records = base_state.request_records
    ∧ (rl_whitelist_add base_state "w").request_records =
        base_state.request_records := by
  refine ⟨?_, ?_, ?_⟩
  · exact (claim_c5 _ "w").1 (by decide)
  · exact (claim_c5 base_state "w").2.1
  · exact (claim_c5 base_state "w").2.2

/-- All values of a limit map are strictly positive. -/
def map_positive (m : String → Option ℤ) : Prop :=
  ∀ k v, m k = some v → 1 ≤ v

/-- C8 amended: the administrative setters reject counts `< 1` and therefore
preserve the strict-positivity invariant of the three limit maps, but
deserialization stores any integer a well-formed entry parses to — `"a:0"`
yields the value 0 — so the invariant does not hold for every populating
path. -/
theorem claim_c8 (s : PluginState) (u g : String) (c : ℤ) :
    (map_positive s.user_limits →
        map_positive (rl_user_set s u c).user_limits)
    ∧ (map_positive s.group_limits →
        map_positive (rl_group_set s g c).group_limits)
    ∧ (map_positive s.group_total_limits →
        map_positive (rl_gtotal_set s g c).group_total_limits)
    ∧ parse_limit_list ["a:0".toList] "a".toList = some 0 := by
  refine ⟨?_, ?_, ?_, by decide⟩
  · intro hp
    rw [rl_user_set]
    split
    · exact hp
    · rename_i hc
      intro k v hkv
      rw [show ({ s with
              user_limits := set_fn s.user_limits u (some c),
              request_records := set_fn s.request_records u [] } :
            PluginState).user_limits = set_fn s.user_limits u (some c) from
          rfl] at hkv
      rw [set_fn] at hkv
      by_cases hk : k = u
      · rw [if_pos hk] at hkv
        cases hkv
        omega
      · rw [if_neg hk] at hkv
        exact hp k v hkv
  · intro hp
    rw [rl_group_set]
    split
    · exact hp
    · rename_i hc
      intro k v hkv
      rw [show ({ s with
              group_limits := set_fn s.group_limits g (some c) } :
            PluginState).group_limits = set_fn s.group_limits g (some c) from
          rfl] at hkv
      rw [set_fn] at hkv
      by_cases hk : k = g
      · rw [if_pos hk] at hkv
        cases hkv
        omega
      · rw [if_neg hk] at hkv
        exact hp k v hkv
  · intro hp
    rw [rl_gtotal_set]
    split
    · exact hp
    · rename_i hc
      intro k v hkv
      rw [show ({ s with
              group_total_limits := set_fn s.group_total_limits g (some c) } :
            PluginState).group_total_limits =
          set_fn s.group_total_limits g (some c) from rfl] at hkv
      rw [set_fn] at hkv
      by_cases hk : k = g
      · rw [if_pos hk] at hkv
        cases hkv
        omega
      · rw [if_neg hk] at hkv
        exact hp k v hkv

/-- Witness for C8 amended: starting from the empty maps, setting limits 5,
7 and 3 through the three setters keeps every stored value `≥ 1`. -/
theorem claim_c8_witness :
    map_positive (rl_user_set base_state "u" 5).user_limits
    ∧ map_positive (rl_group_set base_state "g" 7).group_limits
    ∧ map_positive (rl_gtotal_set base_state "g" 3).group_total_limits := by
  have h0 : map_positive base_state.user_limits := by
    intro k v hkv
    cases hkv
  have h1 : map_positive base_state.group_limits := by
    intro k v hkv
    cases hkv
  have h2 : map_positive base_state.group_total_limits := by
    intro k v hkv
    cases hkv
  exact ⟨(claim_c8 base_state "u" "g" 5).1 h0,
    (claim_c8 base_state "u" "g" 7).2.1 h1,
    (claim_c8 base_state "u" "g" 3).2.2.1 h2⟩

/-- Any successful check returns the pruned deque in its `records'` field. -/
theorem sliding_window_check_records (records : List ℚ) (cap tw : ℤ)
    (now : ℚ) (r : CheckResult)
    (h : sliding_window_check records cap tw now = some r) :
    r.records' = prune records (now - (tw : ℚ)) := by
  rw [sliding_window_check_eq] at h
  split at h
  · rcases hpr : prune records (now - (tw : ℚ)) with _ | ⟨t, rest⟩
    · rw [hpr] at h
      cases h
    · rw [hpr] at h
      simp only [Option.some.injEq] at h
      subst h
      rfl
  · simp only [Option.some.injEq] at h
    subst h
    rfl

/-- Characterization of stage 1: when the user limit is enabled, the
successor state is the input with the actor's counter pruned in place; when
disabled, the stage is a no-op that allows. -/
theorem user_stage_spec (s : PluginState) (u : String) (g : Option String)
    (now : ℚ) (s1 : PluginState) (a : Bool) (cd : ℚ)
    (h : user_stage s u g now = some (s1, a, cd)) :
    (s.enable_user_limit = true →
        s1 = { s with
          request_records := set_fn s.request_records u
            (prune (s.request_records u) (now - (s.time_window : ℚ))) })
    ∧ (s.enable_user_limit = false → s1 = s ∧ a = true) := by
  rw [user_stage] at h
  by_cases he : s.enable_user_limit = true
  · rw [if_pos he] at h
    rcases hc : sliding_window_check (s.request_records u)
        (resolve_max_requests s u g) s.time_window now with _ | r
    · rw [hc] at h
      cases h
    · rw [hc] at h
      simp only [Option.some.injEq, Prod.mk.injEq] at h
      obtain ⟨hs1, _, _⟩ := h
      have hrec := sliding_window_check_records _ _ _ _ _ hc
      refine ⟨fun _ => ?_, fun hf => absurd he (by rw [hf]; decide)⟩
      rw [← hs1, hrec]
  · rw [if_neg he] at h
    simp only [Option.some.injEq, Prod.mk.injEq] at h
    obtain ⟨hs1, ha, _⟩ := h
    exact ⟨fun ht => absurd ht he, fun _ => ⟨hs1.symm, ha.symm⟩⟩

/-- Characterization of stage 2: when a group cap is active, the successor
state is the input with the group's counter pruned in place; otherwise the
stage is a no-op that allows. -/
theorem group_stage_spec (s : PluginState) (g : Option String) (gm : ℤ)
    (now : ℚ) (s2 : PluginState) (a : Bool) (cd : ℚ)
    (h : group_stage s g gm now = some (s2, a, cd)) :
    ((group_truthy g && decide (0 < gm)) = true →
        s2 = { s with
          group_records := set_fn s.group_records (g.getD "")
            (prune (s.group_records (g.getD "")) (now - (s.time_window : ℚ))) })
    ∧ ((group_truthy g && decide (0 < gm)) = false → s2 = s ∧ a = true) := by
  rw [group_stage] at h
  by_cases hgate : (group_truthy g && decide (0 < gm)) = true
  · rw [if_pos hgate] at h
    rcases hc : sliding_window_check (s.group_records (g.getD "")) gm
        s.time_window now with _ | r
    · rw [hc] at h
      cases h
    · rw [hc] at h
      simp only [Option.some.injEq, Prod.mk.injEq] at h
      obtain ⟨hs2, _, _⟩ := h
      have hrec := sliding_window_check_records _ _ _ _ _ hc
      refine ⟨fun _ => ?_, fun hf => absurd hgate (by rw [hf]; decide)⟩
      rw [← hs2, hrec]
  · rw [if_neg hgate] at h
    simp only [Option.some.injEq, Prod.mk.injEq] at h
    obtain ⟨hs2, ha, _⟩ := h
    exact ⟨fun ht => absurd ht hgate, fun _ => ⟨hs2.symm, ha.symm⟩⟩

/-- Field-level consequences of stage 1: the group counters and the
configuration are untouched; the actor's counter is pruned (when the user
limit is enabled), and the stage is a no-op otherwise. -/
theorem user_stage_fields (s : PluginState) (u : String) (g : Option String)
    (now : ℚ) (s1 : PluginState) (a : Bool) (cd : ℚ)
    (h : user_stage s u g now = some (s1, a, cd)) :
    s1.group_records = s.group_records
    ∧ s1.enable_user_limit = s.enable_user_limit
    ∧ s1.time_window = s.time_window
    ∧ (∀ g', group_max_of s1 g' = group_max_of s g')
    ∧ (s.enable_user_limit = true →
        s1.request_records u =
          prune (s.request_records u) (now - (s.time_window : ℚ)))
    ∧ (s.enable_user_limit = false →
        s1.request_records u = s.request_records u ∧ a = true) := by
  have hus := user_stage_spec s u g now s1 a cd h
  by_cases he : s.enable_user_limit = true
  · have hs1 := hus.1 he
    refine ⟨by rw [hs1], by rw [hs1], by rw [hs1],
      fun g' => by rw [hs1]; rfl, fun _ => ?_, fun hf => ?_⟩
    · rw [hs1]
      simp [set_fn]
    · rw [hf] at he
      exact absurd he (by decide)
  · have he' : s.enable_user_limit = false := by
      revert he
      cases s.enable_user_limit <;> simp
    obtain ⟨hs1, ha⟩ := hus.2 he'
    exact ⟨by rw [hs1], by rw [hs1], by rw [hs1], fun g' => by rw [hs1],
      fun ht => absurd ht he, fun _ => ⟨by rw [hs1], ha⟩⟩

/-- Field-level consequences of stage 2: the user counters and the
configuration are untouched; the group's counter is pruned when the gate is
active, and the stage is a no-op otherwise. -/
theorem group_stage_fields (s : PluginState) (g : Option String) (gm : ℤ)
    (now : ℚ) (s2 : PluginState) (a : Bool) (cd : ℚ)
    (h : group_stage s g gm now = some (s2, a, cd)) :
    s2.request_records = s.request_records
    ∧ s2.enable_user_limit = s.enable_user_limit
    ∧ ((group_truthy g && decide (0 < gm)) = true →
        s2.group_records (g.getD "") =
          prune (s.group_records (g.getD "")) (now - (s.time_window : ℚ)))
    ∧ ((group_truthy g && decide (0 < gm)) = false →
        s2 = s ∧ a = true) := by
  have hgs := group_stage_spec s g gm now s2 a cd h
  by_cases hgate : (group_truthy g && decide (0 < gm)) = true
  · have hs2 := hgs.1 hgate
    refine ⟨by rw [hs2], by rw [hs2], fun _ => ?_, fun hf => ?_⟩
    · rw [hs2]
      simp [set_fn]
    · rw [hf] at hgate
      exact absurd hgate (by decide)
  · have hgate' : (group_truthy g && decide (0 < gm)) = false := by
      revert hgate
      cases (group_truthy g && decide (0 < gm)) <;> simp
    obtain ⟨hs2, ha⟩ := hgs.2 hgate'
    exact ⟨by rw [hs2], by rw [hs2], fun ht => absurd ht hgate,
      fun _ => ⟨hs2, ha⟩⟩

/-- Field-level behaviour of the record step: `now` is appended to the
actor's counter iff the user limit is enabled, and to the group's counter
iff the group cap is active; nothing else changes. -/
theorem record_stage_fields (s : PluginState) (u : String)
    (g : Option String) (gm : ℤ) (now : ℚ) :
    (s.enable_user_limit = true →
        (record_stage s u g gm now).request_records u =
          s.request_records u ++ [now])
    ∧ (s.enable_user_limit = false →
        (record_stage s u g gm now).request_records u = s.request_records u)
    ∧ ((group_truthy g && decide (0 < gm)) = true →
        (record_stage s u g gm now).group_records (g.getD "") =
          s.group_records (g.getD "") ++ [now])
    ∧ ((group_truthy g && decide (0 < gm)) = false →
        (record_stage s u g gm now).group_records = s.group_records) := by
  refine ⟨fun he => ?_, fun he => ?_, fun hgate => ?_, fun hgate => ?_⟩
  · by_cases hgate : (group_truthy g && decide (0 < gm)) = true
    · simp [record_stage, set_fn, sliding_window_record, he, hgate]
    · simp [record_stage, set_fn, sliding_window_record, he, hgate]
  · by_cases hgate : (group_truthy g && decide (0 < gm)) = true
    · simp [record_stage, set_fn, sliding_window_record, he, hgate]
    · simp [record_stage, set_fn, sliding_window_record, he, hgate]
  · by_cases he : s.enable_user_limit = true
    · simp [record_stage, set_fn, sliding_window_record, he, hgate]
    · simp [record_stage, set_fn, sliding_window_record, he, hgate]
  · by_cases he : s.enable_user_limit = true
    · simp [record_stage, set_fn, sliding_window_record, he, hgate]
    · simp [record_stage, set_fn, sliding_window_record, he, hgate]

/-- C1: for every admission request, if the user-level check denies, neither
counter gains a timestamp (the group counter is untouched and the actor's
counter is only pruned); if the group-aggregate check denies, the actor's
counter is not incremented either (only pruned); and `now` is appended to
the applicable counters only on the fully-allowed outcome. -/
theorem claim_c1 (s : PluginState) (user_id : String)
    (group_id : Option String) (now : ℚ) (s' : PluginState) (d : Decision)
    (h : on_llm_request s user_id group_id now = some (s', d)) :
    (d.reason = Reason.userLimit →
        s'.group_records = s.group_records
        ∧ s'.request_records user_id =
            prune (s.request_records user_id) (now - (s.time_window : ℚ)))
    ∧ (d.reason = Reason.groupTotal →
        (s.enable_user_limit = true →
            s'.request_records user_id =
              prune (s.request_records user_id) (now - (s.time_window : ℚ)))
        ∧ (s.enable_user_limit = false →
            s'.request_records user_id = s.request_records user_id))
    ∧ (d.reason = Reason.ok →
        (s.enable_user_limit = true →
            s'.request_records user_id =
              prune (s.request_records user_id) (now - (s.time_window : ℚ))
                ++ [now])
        ∧ (s.enable_user_limit = false →
            s'.request_records user_id = s.request_records user_id)
        ∧ ((group_truthy group_id
              && decide (0 < group_max_of s group_id)) = true →
            s'.group_records (group_id.getD "") =
              prune (s.group_records (group_id.getD ""))
                (now - (s.time_window : ℚ)) ++ [now])
        ∧ ((group_truthy group_id
              && decide (0 < group_max_of s group_id)) = false →
            s'.group_records = s.group_records)) := by
  rw [on_llm_request] at h
  by_cases hw : user_id ∈ s.whitelist
  · rw [if_pos hw] at h
    simp only [Option.some.injEq, Prod.mk.injEq] at h
    obtain ⟨hs, hd⟩ := h
    subst hs
    subst hd
    exact ⟨fun hr => absurd hr (by decide), fun hr => absurd hr (by decide),
      fun hr => absurd hr (by decide)⟩
  · rw [if_neg hw] at h
    rcases hu : user_stage s user_id group_id now with _ | ⟨⟨s1, ua, ucd⟩⟩
    · rw [hu] at h
      cases h
    · rw [hu] at h
      have huf := user_stage_fields s user_id group_id now s1 ua ucd hu
      obtain ⟨hu_grp, hu_en, hu_tw, hu_gm, hu_prune, hu_noop⟩ := huf
      dsimp only at h
      cases ua with
      | false =>
        simp only [Bool.false_eq_true, if_false, Option.some.injEq,
          Prod.mk.injEq] at h
        obtain ⟨hs, hd⟩ := h
        subst hs
        subst hd
        refine ⟨fun _ => ⟨hu_grp, ?_⟩, fun hr => by simp at hr,
          fun hr => by simp at hr⟩
        by_cases he : s.enable_user_limit = true
        · exact hu_prune he
        · have he' : s.enable_user_limit = false := by
            revert he
            cases s.enable_user_limit <;> simp
          exact absurd (hu_noop he').2 (by decide)
      | true =>
        rw [if_pos rfl] at h
        rcases hg : group_stage s1 group_id (group_max_of s1 group_id) now
            with _ | ⟨⟨s2, ga, gcd⟩⟩
        · rw [hg] at h
          cases h
        · rw [hg] at h
          have hgf := group_stage_fields s1 group_id
            (group_max_of s1 group_id) now s2 ga gcd hg
          obtain ⟨hg_req, hg_en, hg_prune, hg_noop⟩ := hgf
          have hgm1 : group_max_of s1 group_id = group_max_of s group_id :=
            hu_gm group_id
          dsimp only at h
          cases ga with
          | false =>
            simp only [Bool.false_eq_true, if_false, Option.some.injEq,
              Prod.mk.injEq] at h
            obtain ⟨hs, hd⟩ := h
            subst hs
            subst hd
            refine ⟨fun hr => by simp at hr, fun _ => ⟨?_, ?_⟩,
              fun hr => by simp at hr⟩
            · intro he
              rw [hg_req]
              exact hu_prune he
            · intro he
              rw [hg_req]
              exact (hu_noop he).1
          | true =>
            rw [if_pos rfl] at h
            simp only [Option.some.injEq, Prod.mk.injEq] at h
            obtain ⟨hs, hd⟩ := h
            subst hs
            subst hd
            have hrf := record_stage_fields s2 user_id group_id
              (group_max_of s1 group_id) now
            obtain ⟨hr_app, hr_noapp, hr_gapp, hr_gnoapp⟩ := hrf
            have hs2_en : s2.enable_user_limit = s.enable_user_limit := by
              rw [hg_en, hu_en]
            refine ⟨fun hr => by simp at hr, fun hr => by simp at hr,
              fun _ => ⟨?_, ?_, ?_, ?_⟩⟩
            · intro he
              rw [hr_app (by rw [hs2_en, he]), hg_req, hu_prune he]
            · intro he
              rw [hr_noapp (by rw [hs2_en, he]), hg_req, (hu_noop he).1]
            · intro hgate
              have hgate1 : (group_truthy group_id
                  && decide (0 < group_max_of s1 group_id)) = true := by
                rw [hgm1]
                exact hgate
              rw [hr_gapp hgate1, hg_prune hgate1, hu_grp, hu_tw]
            · intro hgate
              have hgate1 : (group_truthy group_id
                  && decide (0 < group_max_of s1 group_id)) = false := by
                rw [hgm1]
                exact hgate
              rw [hr_gnoapp hgate1, (hg_noop hgate1).1, hu_grp]

/-- A state with a global per-user cap of 1 and a recorded event at 50 for
actor `"u"`. -/
def c1_state : PluginState :=
  { base_state with
    max_requests := 1,
    request_records := set_fn base_state.request_records "u" [50] }

/-- Witness for C1: at `now = 100` the user-level check denies actor `"u"`
(cap 1, one event inside the window), and the denied request leaves the
group counters untouched and the actor's counter merely pruned. -/
theorem claim_c1_witness :
    ∃ s' : PluginState,
      on_llm_request c1_state "u" none 100 =
        some (s', ⟨false, 10, Reason.userLimit⟩)
      ∧ s'.group_records = c1_state.group_records
      ∧ s'.request_records "u" =
          prune (c1_state.request_records "u")
            (100 - (c1_state.time_window : ℚ)) := by
  have h : on_llm_request c1_state "u" none 100 =
      some ({ c1_state with
        request_records := set_fn c1_state.request_records "u" [50] },
        ⟨false, 10, Reason.userLimit⟩) := by
    norm_num [on_llm_request, user_stage, sliding_window_check,
      resolve_max_requests, c1_state, base_state, set_fn, py_round1,
      round_half_even, List.dropWhile]
  have hc := claim_c1 c1_state "u" none 100 _ _ h
  exact ⟨_, h, (hc.1 rfl).1, (hc.1 rfl).2⟩

/-- Sequential processing of a batch of requests, collecting the decisions. -/
def run_requests :
    PluginState → List (String × Option String × ℚ) →
      Option (PluginState × List Decision)
  | s, [] => some (s, [])
  | s, (u, g, t) :: rest =>
    match on_llm_request s u g t with
    | none => none
    | some (s', d) =>
      match run_requests s' rest with
      | none => none
      | some (s'', ds) => some (s'', d :: ds)

/-- The group-total scenario configuration: `default_group_total = 0` and a
per-group total cap of 5 for `"g1"`. -/
def c6_state : PluginState :=
  { base_state with
    group_total_limits := set_fn base_state.group_total_limits "g1" (some 5) }

/-- Six distinct actors, one request each to `"g1"`, at `t = 0..5`. -/
def c6_requests : List (String × Option String × ℚ) :=
  [("u0", some "g1", 0), ("u1", some "g1", 1), ("u2", some "g1", 2),
    ("u3", some "g1", 3), ("u4", some "g1", 4), ("u5", some "g1", 5)]

section

attribute [local semireducible] Rat.sub

/-- C6: the group-aggregate check runs only when the group-total feature is
enabled, a group is present, and the resolved group cap is positive — in
every other situation the group counters are untouched and no decision
carries reason `group_total`; and in the concrete scenario with
`default_group_total = 0` and cap 5 for `"g1"`, five distinct actors at
`t = 0..4` are all allowed and a sixth distinct actor at `t = 5` is denied
with reason `group_total`. -/
theorem claim_c6 (s : PluginState) (user_id : String)
    (group_id : Option String) (now : ℚ)
    (h : ¬ (s.enable_group_total_limit = true ∧ group_truthy group_id = true
        ∧ 0 < resolve_group_total s (group_id.getD ""))) :
    (∀ s' d, on_llm_request s user_id group_id now = some (s', d) →
        s'.group_records = s.group_records ∧ d.reason ≠ Reason.groupTotal)
    ∧ (run_requests c6_state c6_requests).map
        (fun p => p.2.map (fun d => (d.allowed, d.reason))) =
      some [(true, Reason.ok), (true, Reason.ok), (true, Reason.ok),
        (true, Reason.ok), (true, Reason.ok), (false, Reason.groupTotal)] := by
  constructor
  · intro s' d hreq
    have hgate : (group_truthy group_id
        && decide (0 < group_max_of s group_id)) = false := by
      by_cases hb : group_truthy group_id = true
      · by_cases he : s.enable_group_total_limit = true
        · have hnp : ¬ 0 < resolve_group_total s (group_id.getD "") :=
            fun hpos => h ⟨he, hb, hpos⟩
          rw [group_max_of, if_pos (by rw [he, hb]; rfl)]
          rw [hb, decide_eq_false hnp, Bool.and_false]
        · have he' : s.enable_group_total_limit = false := by
            revert he
            cases s.enable_group_total_limit <;> simp
          rw [group_max_of, if_neg (by rw [he']; simp)]
          simp
      · have hb' : group_truthy group_id = false := by
          revert hb
          cases group_truthy group_id <;> simp
        rw [hb', Bool.false_and]
    rw [on_llm_request] at hreq
    by_cases hw : user_id ∈ s.whitelist
    · rw [if_pos hw] at hreq
      simp only [Option.some.injEq, Prod.mk.injEq] at hreq
      obtain ⟨hs, hd⟩ := hreq
      subst hs
      subst hd
      exact ⟨rfl, by decide⟩
    · rw [if_neg hw] at hreq
      rcases hu : user_stage s user_id group_id now with _ | ⟨⟨s1, ua, ucd⟩⟩
      · rw [hu] at hreq
        cases hreq
      · rw [hu] at hreq
        obtain ⟨hu_grp, hu_en, hu_tw, hu_gm, hu_prune, hu_noop⟩ :=
          user_stage_fields s user_id group_id now s1 ua ucd hu
        dsimp only at hreq
        cases ua with
        | false =>
          simp only [Bool.false_eq_true, if_false, Option.some.injEq,
            Prod.mk.injEq] at hreq
          obtain ⟨hs, hd⟩ := hreq
          subst hs
          subst hd
          exact ⟨hu_grp, by simp⟩
        | true =>
          rw [if_pos rfl] at hreq
          rcases hg : group_stage s1 group_id (group_max_of s1 group_id) now
              with _ | ⟨⟨s2, ga, gcd⟩⟩
          · rw [hg] at hreq
            cases hreq
          · rw [hg] at hreq
            obtain ⟨hg_req, hg_en, hg_prune, hg_noop⟩ :=
              group_stage_fields s1 group_id (group_max_of s1 group_id) now
                s2 ga gcd hg
            have hgate1 : (group_truthy group_id
                && decide (0 < group_max_of s1 group_id)) = false := by
              rw [hu_gm group_id]
              exact hgate
            obtain ⟨hs21, hga⟩ := hg_noop hgate1
            dsimp only at hreq
            cases ga with
            | false => exact absurd hga (by decide)
            | true =>
              rw [if_pos rfl] at hreq
              simp only [Option.some.injEq, Prod.mk.injEq] at hreq
              obtain ⟨hs, hd⟩ := hreq
              subst hs
              subst hd
              obtain ⟨_, _, _, hr_gnoapp⟩ :=
                record_stage_fields s2 user_id group_id
                  (group_max_of s1 group_id) now
              refine ⟨?_, by simp⟩
              rw [hr_gnoapp hgate1, hs21, hu_grp]
  · decide

end

/-- Witness for C6: group `"g2"` has no total cap and the default is 0, so
the admission of `"u"` at `t = 0` never consults the group counter: the
group records are unchanged and the reason is not `group_total`. -/
theorem claim_c6_witness :
    ∃ s' d, on_llm_request base_state "u" (some "g2") 0 = some (s', d)
      ∧ s'.group_records = base_state.group_records
      ∧ d.reason ≠ Reason.groupTotal := by
  have h : ¬ (base_state.enable_group_total_limit = true
      ∧ group_truthy (some "g2") = true
      ∧ 0 < resolve_group_total base_state ((some "g2").getD "")) := by
    decide
  have hc := claim_c6 base_state "u" (some "g2") 0 h
  have hev : on_llm_request base_state "u" (some "g2") 0 =
      some ({ base_state with
        request_records :=
          set_fn (set_fn base_state.request_records "u" []) "u" [0] },
        ⟨true, 0, Reason.ok⟩) := by
    norm_num [on_llm_request, user_stage, group_stage, record_stage,
      group_max_of, resolve_group_total, resolve_max_requests, group_truthy,
      sliding_window_check, sliding_window_record, base_state, set_fn,
      List.dropWhile]
  exact ⟨_, _, hev, (hc.1 _ _ hev).1, (hc.1 _ _ hev).2⟩
